import Mathlib

/-!
Shallow embedding of `src/file_sync.py` (a one-way directory synchronizer
with size-based overwrite decisions and a dated text report).

Modelling conventions:
* The filesystem primitives (`os.walk`, `os.path.getsize`, `shutil.copy2`,
  `os.makedirs`) are external fallible operations.  Their observable
  behaviour is part of the input: the walk enumeration is given as a list
  of directory entries, a size lookup that would raise `OSError` is a
  `none` size, a `shutil.copy2` call that would raise carries its message
  in `copyError`, and an `os.makedirs` call that would raise carries its
  message in `mkdirError`.
* Python strings are Lean `String`s; `os.path.join`/`os.path.relpath`
  arithmetic is modelled on destination-relative (equivalently
  source-relative) paths, with the root directory written `""` after the
  `rel_dir == "."` normalization the code performs.
* Lines 102 and 105 of the source pass `follow_symlinks=false` with a
  lowercase `false`, an undefined name in Python; evaluating the call's
  arguments therefore raises `NameError: name 'false' is not defined`
  before `shutil.copy2` runs.  The embedding reproduces this: both
  overwrite branches raise that message instead of copying.
-/

namespace FileSync

/-- Observable data of one filesystem entry: the result of `os.path.getsize`
(`none` models an `OSError`, e.g. a broken symlink target), the byte
content, and whether the entry is itself a symbolic link. -/
structure FileData where
  size : Option Nat
  content : String
  isSymlink : Bool
deriving DecidableEq

/-- A regular-file entry of the source tree as the walk enumerates it.
`copyError` is `some m` when `shutil.copy2` on this entry would raise an
exception with message `m`. -/
structure SrcFile where
  name : String
  data : FileData
  copyError : Option String
deriving DecidableEq

/-- One `(root, dirs, files)` step of `os.walk(src, followlinks=False)`:
the directory's path relative to the source root (`"."` for the root, as
`os.path.relpath` returns) and its regular-file entries.  `mkdirError` is
`some m` when `os.makedirs(dst_dir, exist_ok=True)` for this directory
would raise an exception with message `m` (e.g. a non-directory already
sits at that destination path, or a permission failure). -/
structure WalkEntry where
  relDir : String
  files : List SrcFile
  mkdirError : Option String
deriving DecidableEq

/-- The source argument of `sync_copy`: its (absolute) path string, the
two facts the preconditions test, and the traversal `os.walk` produces. -/
structure Source where
  path : String
  pathExists : Bool
  isDir : Bool
  walk : List WalkEntry
deriving DecidableEq

/-- Destination filesystem state: directories and regular files present,
both keyed by destination-relative path. -/
structure DestFS where
  dirs : List String
  files : List (String × FileData)
deriving DecidableEq

/-- Lookup of the destination file at relative path `p`. -/
def DestFS.getFile (d : DestFS) (p : String) : Option FileData :=
  (d.files.find? (fun kv => kv.1 == p)).map (·.2)

/-- `os.path.exists(dst_path)` for a regular-file path. -/
def DestFS.hasFile (d : DestFS) (p : String) : Bool :=
  (d.getFile p).isSome

/-- Effect of a successful `shutil.copy2` onto relative path `p`: the
destination now holds an entry identical to the source entry. -/
def DestFS.setFile (d : DestFS) (p : String) (fd : FileData) : DestFS :=
  { d with files := (p, fd) :: d.files.filter (fun kv => !(kv.1 == p)) }

/-- Effect of `os.makedirs(dst_dir, exist_ok=True)` when it succeeds:
the relative directory path is present afterwards (idempotent). -/
def DestFS.addDir (d : DestFS) (p : String) : DestFS :=
  { d with dirs := if d.dirs.contains p then d.dirs else d.dirs ++ [p] }

/-- The `rel_dir == "."` to `""` normalization at lines 71-72. -/
def normRel (s : String) : String :=
  if s == "." then "" else s

/-- `os.path.join` on relative paths, with the root spelled `""`. -/
def joinRel (d f : String) : String :=
  if d == "" then f else d ++ "/" ++ f

/-- A `shutil.copy2` invocation actually performed, with the literal
`follow_symlinks` flag it was passed. -/
structure CopyOp where
  srcRel : String
  dstRel : String
  followSymlinks : Bool
deriving DecidableEq

/-- The `results` dictionary built by `sync_copy` (lines 52-57). -/
structure SyncResult where
  new : List String
  overwritten : List String
  skipped : List String
  errors : List String
deriving DecidableEq

/-- Full state threaded through the traversal: the accumulating result,
the destination filesystem, and the trace of copies performed. -/
structure SyncState where
  result : SyncResult
  dest : DestFS
  ops : List CopyOp
deriving DecidableEq

/-- Exceptions `sync_copy` can propagate to its caller. -/
inductive SyncExc where
  | fileNotFound (msg : String)
  | notADirectory (msg : String)
  | osError (msg : String)
deriving DecidableEq

/-- The per-file `try` body (lines 81-109).  Returns the updated state, or
the message of the exception the body raised.  The two overwrite branches
(size lookup failed on either side, or sizes differ) reference the
undefined Python name `false` at lines 102/105, so both raise
`NameError: name 'false' is not defined` before any copy happens. -/
def tryProcessFile (relDir : String) (f : SrcFile) (st : SyncState) :
    Except String SyncState :=
  let relPath := joinRel relDir f.name
  match st.dest.getFile relPath with
  | none =>
      match f.copyError with
      | some m => .error m
      | none =>
          .ok { st with
                result := { st.result with new := st.result.new ++ [relPath] }
                dest := st.dest.setFile relPath f.data
                ops := st.ops ++ [⟨relPath, relPath, false⟩] }
  | some dfd =>
      let srcSize := f.data.size
      let dstSize := dfd.size
      if srcSize.isNone || dstSize.isNone then
        .error "name 'false' is not defined"
      else if srcSize ≠ dstSize then
        .error "name 'false' is not defined"
      else
        .ok { st with
              result := { st.result with
                          skipped := st.result.skipped ++ [relPath] } }

/-- One iteration of the inner file loop (lines 77-111): run the `try`
body; on an exception, format it as `"<source-relative-path> -> <msg>"`
and append it to `errors`, then continue. -/
def processFile (relDir : String) (f : SrcFile) (st : SyncState) : SyncState :=
  match tryProcessFile relDir f st with
  | .ok st' => st'
  | .error m =>
      { st with
        result := { st.result with
                    errors := st.result.errors ++
                      [joinRel relDir f.name ++ " -> " ++ m] } }

/-- The inner file loop of one walk entry. -/
def runFiles (relDir : String) (fs : List SrcFile) (st : SyncState) : SyncState :=
  fs.foldl (fun s f => processFile relDir f s) st

/-- One iteration of the outer `os.walk` loop (lines 68-111): mirror the
directory (the `os.makedirs` at line 75 sits outside the per-file
`try`/`except`, so its exception propagates), then process each file. -/
def processEntry (e : WalkEntry) (st : SyncState) : Except SyncExc SyncState :=
  let rd := normRel e.relDir
  match e.mkdirError with
  | some m => .error (.osError m)
  | none =>
      .ok (runFiles rd e.files { st with dest := st.dest.addDir rd })

/-- The whole traversal, one walk entry after the other. -/
def runWalk : List WalkEntry → SyncState → Except SyncExc SyncState
  | [], st => .ok st
  | e :: es, st =>
      match processEntry e st with
      | .error x => .error x
      | .ok st' => runWalk es st'

/-- `sync_copy(src, dst)` (lines 44-113): the two precondition checks, then
the traversal starting from empty result lists. -/
def sync_copy (src : Source) (dest : DestFS) : Except SyncExc SyncState :=
  if !src.pathExists then
    .error (.fileNotFound ("Source not found: " ++ src.path))
  else if !src.isDir then
    .error (.notADirectory ("Source is not a directory: " ++ src.path))
  else
    runWalk src.walk ⟨⟨[], [], [], []⟩, dest, []⟩

/-- Number of file entries the traversal enumerates. -/
def totalFiles (walk : List WalkEntry) : Nat :=
  (walk.map (fun e => e.files.length)).sum

/-- Destination-relative paths of every file of the walk, in order. -/
def allPaths (walk : List WalkEntry) : List String :=
  walk.flatMap (fun e => e.files.map (fun f => joinRel (normRel e.relDir) f.name))

/-- The argument of `write_report`: a Python dictionary that may or may not
carry each of the four keys, read with `results.get(key, [])`
(lines 141-144). -/
structure ResultsDict where
  new? : Option (List String)
  overwritten? : Option (List String)
  skipped? : Option (List String)
  errors? : Option (List String)
deriving DecidableEq

/-- The dictionary `sync_copy` returns: all four keys present. -/
def SyncResult.toDict (r : SyncResult) : ResultsDict :=
  ⟨some r.new, some r.overwritten, some r.skipped, some r.errors⟩

/-- `<report_directory>/<date>_<file_name>.txt` (lines 118-120 / 137-139);
`os.path.join` modelled as `/`-concatenation. -/
def report_path (reportDirectory dateStr fileName : String) : String :=
  reportDirectory ++ "/" ++ dateStr ++ "_" ++ fileName ++ ".txt"

/-- The lines `write_report` writes (lines 146-164), in order: header,
summary block with the four counts (missing keys read as `[]`), a blank
line, then — only when `errors` is non-empty — an `Errors:` section with
one indented line per error string and a trailing blank line, and finally
the closing sentinel.  The date string is an argument because
`chicago_today_str` reads the clock. -/
def write_report_lines (results : ResultsDict) (dateStr : String) :
    List String :=
  let new_count := (results.new?.getD []).length
  let overwritten_count := (results.overwritten?.getD []).length
  let skipped_count := (results.skipped?.getD []).length
  let errors := results.errors?.getD []
  ("Report date (America/Chicago): " ++ dateStr) ::
  "Summary:" ::
  ("  New files:         " ++ toString new_count) ::
  ("  Overwritten files: " ++ toString overwritten_count) ::
  ("  Skipped files:     " ++ toString skipped_count) ::
  ("  Errors:            " ++ toString errors.length) ::
  "" ::
  ((if errors.isEmpty then []
    else "Errors:" :: (errors.map (fun e => "  " ++ e)) ++ [""]) ++
   ["End of report"])

/-- The lines `write_error_report` writes (lines 122-131): counts forced
to `0 0 0 1` and a single error entry equal to the message. -/
def write_error_report_lines (errorMessage dateStr : String) : List String :=
  ("Report date (America/Chicago): " ++ dateStr) ::
  "Summary:" ::
  "  New files:         0" ::
  "  Overwritten files: 0" ::
  "  Skipped files:     0" ::
  "  Errors:            1" ::
  "" ::
  "Errors:" ::
  ("  " ++ errorMessage) ::
  "" ::
  ["End of report"]

/-- What the CLI glue produces on its error path: the report file written
and the console lines printed. -/
structure CLIErrorOutput where
  reportPath : String
  reportLines : List String
  consoleLines : List String
deriving DecidableEq

/-- The `except` branch of `main` (lines 212-217): write an error report
whose single entry is the exception's message, then print the message and
the report path. -/
def main_on_exception (excMessage reportDir fileName dateStr : String) :
    CLIErrorOutput :=
  let path := report_path reportDir dateStr fileName
  { reportPath := path
    reportLines := write_error_report_lines excMessage dateStr
    consoleLines := ["Fatal error: " ++ excMessage,
                     "Error report written to: " ++ path] }

/-- Example input: a one-file source whose file `a.txt` (2 bytes) already
exists at the destination with a different size (1 byte); no environment
failures. -/
def exSrc1 : Source :=
  ⟨"/data/src", true, true,
   [⟨".", [⟨"a.txt", ⟨some 2, "ab", false⟩, none⟩], none⟩]⟩

/-- Destination for `exSrc1`: `a.txt` present with 1 byte. -/
def exDest1 : DestFS := ⟨[""], [("a.txt", ⟨some 1, "x", false⟩)]⟩

/-- The state `sync_copy exSrc1 exDest1` ends in: the differing-size file
went to `errors` with the `NameError` message of the `false` typo, nothing
was copied, and the destination is unchanged. -/
def exState1 : SyncState :=
  ⟨⟨[], [], [], ["a.txt -> name 'false' is not defined"]⟩,
   ⟨[""], [("a.txt", ⟨some 1, "x", false⟩)]⟩, []⟩

/-- Example input: the spec's two-file scenario, `a.txt` (4 bytes) at the
root and `sub/b.txt` (10 bytes); no environment failures. -/
def exSrc2 : Source :=
  ⟨"/data/src", true, true,
   [⟨".", [⟨"a.txt", ⟨some 4, "abcd", false⟩, none⟩], none⟩,
    ⟨"sub", [⟨"b.txt", ⟨some 10, "0123456789", false⟩, none⟩], none⟩]⟩

/-- The state `sync_copy exSrc2 ⟨[], []⟩` ends in. -/
def exState2 : SyncState :=
  ⟨⟨["a.txt", "sub/b.txt"], [], [], []⟩,
   ⟨["", "sub"],
    [("sub/b.txt", ⟨some 10, "0123456789", false⟩),
     ("a.txt", ⟨some 4, "abcd", false⟩)]⟩,
   [⟨"a.txt", "a.txt", false⟩, ⟨"sub/b.txt", "sub/b.txt", false⟩]⟩

/-- Example input: the source exists and is a directory, but creating the
mirrored destination directory for `sub` raises (a non-directory already
sits at that destination path). -/
def exSrcMkdir : Source :=
  ⟨"/data/src", true, true,
   [⟨".", [], none⟩,
    ⟨"sub", [⟨"b.txt", ⟨some 3, "abc", false⟩, none⟩],
     some "[Errno 17] File exists: '/data/dst/sub'"⟩]⟩

/-- Example input: one file whose `shutil.copy2` raises a permission
error. -/
def exSrcPerm : Source :=
  ⟨"/data/src", true, true,
   [⟨".", [⟨"c.txt", ⟨some 3, "abc", false⟩,
            some "[Errno 13] Permission denied: '/data/src/c.txt'"⟩],
     none⟩]⟩

/-- Example input: the destination root itself cannot be created by the
`os.makedirs` call at line 75. -/
def exSrcLocked : Source :=
  ⟨"/backup/src", true, true,
   [⟨".", [], some "[Errno 13] Permission denied: '/backup/dst'"⟩]⟩

/-- Sum of the four result lists' lengths. -/
def SyncResult.total (r : SyncResult) : Nat :=
  r.new.length + r.overwritten.length + r.skipped.length + r.errors.length

lemma find?_filter_ne (l : List (String × FileData)) (p q : String) (h : p ≠ q) :
    (l.filter (fun kv => !(kv.1 == q))).find? (fun kv => kv.1 == p) =
      l.find? (fun kv => kv.1 == p) := by
  induction l with
  | nil => rfl
  | cons a t ih =>
      by_cases haq : a.1 = q
      · have hqp : (q == p) = false := beq_eq_false_iff_ne.mpr (Ne.symm h)
        have hap : (a.1 == p) = false := by rw [haq]; exact hqp
        have haqb : (a.1 == q) = true := by rw [haq]; simp
        simp [List.filter_cons, List.find?, haqb, hap, ih]
      · have haqb : (a.1 == q) = false := beq_eq_false_iff_ne.mpr haq
        by_cases hap : a.1 = p
        · have hapb : (a.1 == p) = true := by rw [hap]; simp
          simp [List.filter_cons, List.find?, haqb, hapb]
        · have hapb : (a.1 == p) = false := beq_eq_false_iff_ne.mpr hap
          simp [List.filter_cons, List.find?, haqb, hapb, ih]

lemma DestFS.getFile_setFile (d : DestFS) (q : String) (fd : FileData)
    (p : String) :
    (d.setFile q fd).getFile p = if p = q then some fd else d.getFile p := by
  by_cases h : p = q
  · subst h; simp [DestFS.setFile, DestFS.getFile, List.find?]
  · have hqp : (q == p) = false := by
      simp; exact fun hpq => h hpq.symm
    simp [DestFS.setFile, DestFS.getFile, List.find?, hqp,
          find?_filter_ne d.files p q h, h]

lemma DestFS.hasFile_setFile (d : DestFS) (q : String) (fd : FileData)
    (p : String) :
    (d.setFile q fd).hasFile p = ((p == q) || d.hasFile p) := by
  by_cases h : p = q
  · simp [DestFS.hasFile, DestFS.getFile_setFile, h]
  · simp [DestFS.hasFile, DestFS.getFile_setFile, h]

lemma DestFS.getFile_addDir (d : DestFS) (q p : String) :
    (d.addDir q).getFile p = d.getFile p := by
  simp [DestFS.addDir, DestFS.getFile]

lemma DestFS.hasFile_addDir (d : DestFS) (q p : String) :
    (d.addDir q).hasFile p = d.hasFile p := by
  simp [DestFS.hasFile, DestFS.getFile_addDir]

lemma DestFS.mem_dirs_addDir (d : DestFS) (q p : String) :
    p ∈ (d.addDir q).dirs ↔ p ∈ d.dirs ∨ p = q := by
  simp only [DestFS.addDir]
  by_cases h : q ∈ d.dirs
  · have hb : d.dirs.contains q = true := by simpa [List.contains] using h
    rw [if_pos hb]
    constructor
    · exact Or.inl
    · rintro (hp | rfl)
      · exact hp
      · exact h
  · have hb : ¬(d.dirs.contains q = true) := by simpa [List.contains] using h
    rw [if_neg hb]
    simp [List.mem_append]

lemma DestFS.files_addDir (d : DestFS) (q : String) :
    (d.addDir q).files = d.files := rfl

lemma contains_cons_eq (a : String) (l : List String) (p : String) :
    (a :: l).contains p = ((p == a) || l.contains p) := by
  cases hq : p == a <;> simp [List.contains, List.elem, hq]

lemma contains_append_eq (l₁ l₂ : List String) (p : String) :
    (l₁ ++ l₂).contains p = (l₁.contains p || l₂.contains p) := by
  induction l₁ with
  | nil => simp [List.contains]
  | cons a t ih => simp [contains_cons_eq, ih, Bool.or_assoc]

lemma contains_eq_false (l : List String) (p : String) (h : p ∉ l) :
    l.contains p = false := by
  cases hc : l.contains p with
  | false => rfl
  | true => exact absurd (by simpa [List.contains] using hc) h

/-- Shape of a successful per-file `try` body: errors untouched, exactly
one path appended to one of the three success lists, directories
untouched, and any copy performed passed `follow_symlinks=False`. -/
lemma tryProcessFile_ok_shape (rd : String) (f : SrcFile) (st st' : SyncState)
    (h : tryProcessFile rd f st = .ok st') :
    st'.result.errors = st.result.errors ∧
    st'.result.total = st.result.total + 1 ∧
    st'.dest.dirs = st.dest.dirs ∧
    (∀ op ∈ st'.ops, op ∈ st.ops ∨ op.followSymlinks = false) := by
  unfold tryProcessFile at h
  cases hg : st.dest.getFile (joinRel rd f.name) with
  | none =>
      simp only [hg] at h
      cases hc : f.copyError with
      | some m => simp [hc] at h
      | none =>
          simp only [hc] at h
          cases h
          refine ⟨rfl, ?_, rfl, ?_⟩
          · simp [SyncResult.total]; omega
          · intro op hop
            rcases List.mem_append.mp hop with h1 | h1
            · exact Or.inl h1
            · right
              simp at h1
              simp [h1]
  | some dfd =>
      simp only [hg] at h
      split at h
      · exact absurd h (by simp)
      · split at h
        · exact absurd h (by simp)
        · cases h
          refine ⟨rfl, ?_, rfl, fun op hop => Or.inl hop⟩
          simp [SyncResult.total]; omega

/-- Shape of one full per-file iteration: either the `try` body succeeded,
or exactly the formatted error entry was appended. -/
lemma processFile_shape (rd : String) (f : SrcFile) (st : SyncState) :
    ((processFile rd f st).result.errors = st.result.errors ∨
     ∃ m, (processFile rd f st).result.errors =
            st.result.errors ++ [joinRel rd f.name ++ " -> " ++ m]) ∧
    (processFile rd f st).result.total = st.result.total + 1 ∧
    (processFile rd f st).dest.dirs = st.dest.dirs ∧
    (∀ op ∈ (processFile rd f st).ops, op ∈ st.ops ∨ op.followSymlinks = false) := by
  unfold processFile
  cases h : tryProcessFile rd f st with
  | ok st' =>
      obtain ⟨h1, h2, h3, h4⟩ := tryProcessFile_ok_shape rd f st st' h
      exact ⟨Or.inl h1, h2, h3, h4⟩
  | error m =>
      refine ⟨Or.inr ⟨m, rfl⟩, ?_, rfl, fun op hop => Or.inl hop⟩
      simp [SyncResult.total]; omega

/-- Shape of one entry's whole file loop: one outcome per file, no change
to the mirrored directories, only symlink-preserving copies, and every new
error entry formatted from one of the entry's files. -/
lemma runFiles_shape (rd : String) (fs : List SrcFile) (st : SyncState) :
    (runFiles rd fs st).result.total = st.result.total + fs.length ∧
    (runFiles rd fs st).dest.dirs = st.dest.dirs ∧
    (∀ op ∈ (runFiles rd fs st).ops, op ∈ st.ops ∨ op.followSymlinks = false) ∧
    (∀ s ∈ (runFiles rd fs st).result.errors,
       s ∈ st.result.errors ∨
       ∃ f ∈ fs, ∃ m, s = joinRel rd f.name ++ " -> " ++ m) := by
  induction fs generalizing st with
  | nil => exact ⟨rfl, rfl, fun op hop => Or.inl hop, fun s hs => Or.inl hs⟩
  | cons f fs ih =>
      obtain ⟨he, ht, hd, hop⟩ := processFile_shape rd f st
      obtain ⟨iht, ihd, ihop, ihe⟩ := ih (processFile rd f st)
      have hfold : runFiles rd (f :: fs) st = runFiles rd fs (processFile rd f st) := rfl
      rw [hfold]
      refine ⟨?_, ?_, ?_, ?_⟩
      · rw [iht, ht]; simp [List.length_cons]; omega
      · rw [ihd, hd]
      · intro op h1
        rcases ihop op h1 with h2 | h2
        · exact hop op h2
        · exact Or.inr h2
      · intro s hs
        rcases ihe s hs with h1 | h1
        · rcases he with h2 | ⟨m, h2⟩
          · rw [h2] at h1; exact Or.inl h1
          · rw [h2] at h1
            rcases List.mem_append.mp h1 with h3 | h3
            · exact Or.inl h3
            · right
              refine ⟨f, List.mem_cons_self f fs, m, ?_⟩
              simpa using h3
        · obtain ⟨g, hg, m, hm⟩ := h1
          exact Or.inr ⟨g, List.mem_cons_of_mem f hg, m, hm⟩

/-- Shape of a completed traversal: the four lists together hold exactly
one entry per enumerated file, every copy preserved symlinks, and every
error entry is the formatted exception of one enumerated file. -/
lemma runWalk_ok_shape (ws : List WalkEntry) (st st' : SyncState)
    (h : runWalk ws st = .ok st') :
    st'.result.total = st.result.total + totalFiles ws ∧
    (∀ op ∈ st'.ops, op ∈ st.ops ∨ op.followSymlinks = false) ∧
    (∀ s ∈ st'.result.errors,
       s ∈ st.result.errors ∨
       ∃ e ∈ ws, ∃ f ∈ e.files, ∃ m,
         s = joinRel (normRel e.relDir) f.name ++ " -> " ++ m) := by
  induction ws generalizing st with
  | nil =>
      cases h
      exact ⟨by simp [totalFiles], fun op hop => Or.inl hop, fun s hs => Or.inl hs⟩
  | cons e es ih =>
      unfold runWalk processEntry at h
      cases hc : e.mkdirError with
      | some m => simp [hc] at h
      | none =>
          simp only [hc] at h
          set st0 : SyncState := { st with dest := st.dest.addDir (normRel e.relDir) } with hst0
          obtain ⟨ht, _, hop, he⟩ := runFiles_shape (normRel e.relDir) e.files st0
          obtain ⟨iht, ihop, ihe⟩ := ih _ h
          refine ⟨?_, ?_, ?_⟩
          · rw [iht, ht]; simp [totalFiles, hst0]; omega
          · intro op h1
            rcases ihop op h1 with h2 | h2
            · exact hop op h2
            · exact Or.inr h2
          · intro s hs
            rcases ihe s hs with h1 | h1
            · rcases he s h1 with h2 | ⟨f, hf, m, hm⟩
              · exact Or.inl h2
              · exact Or.inr ⟨e, List.mem_cons_self e es, f, hf, m, hm⟩
            · obtain ⟨e', he', f, hf, m, hm⟩ := h1
              exact Or.inr ⟨e', List.mem_cons_of_mem e he', f, hf, m, hm⟩

/-- When every directory creation succeeds, the traversal completes. -/
lemma runWalk_isOk (ws : List WalkEntry) (st : SyncState)
    (h : ∀ e ∈ ws, e.mkdirError = none) :
    ∃ st', runWalk ws st = .ok st' := by
  induction ws generalizing st with
  | nil => exact ⟨st, rfl⟩
  | cons e es ih =>
      have hc : e.mkdirError = none := h e (List.mem_cons_self e es)
      obtain ⟨st', h'⟩ := ih (runFiles (normRel e.relDir) e.files
        { st with dest := st.dest.addDir (normRel e.relDir) })
        (fun e' he' => h e' (List.mem_cons_of_mem e he'))
      exact ⟨st', by simp [runWalk, processEntry, hc, h']⟩

/-- A traversal abort can only come from `os.makedirs` at line 75. -/
lemma runWalk_error_shape (ws : List WalkEntry) (st : SyncState) (x : SyncExc)
    (h : runWalk ws st = .error x) : ∃ m, x = .osError m := by
  induction ws generalizing st with
  | nil => simp [runWalk] at h
  | cons e es ih =>
      unfold runWalk processEntry at h
      cases hc : e.mkdirError with
      | some m =>
          simp only [hc] at h
          cases h
          exact ⟨m, rfl⟩
      | none =>
          simp only [hc] at h
          exact ih _ h

/-- A completed traversal had no directory-creation failure. -/
lemma runWalk_ok_mkdirError (ws : List WalkEntry) (st st' : SyncState)
    (h : runWalk ws st = .ok st') : ∀ e ∈ ws, e.mkdirError = none := by
  induction ws generalizing st with
  | nil => intro e he; simp at he
  | cons e es ih =>
      unfold runWalk processEntry at h
      cases hc : e.mkdirError with
      | some m => simp [hc] at h
      | none =>
          simp only [hc] at h
          intro e' he'
          rcases List.mem_cons.mp he' with rfl | he''
          · exact hc
          · exact ih _ h e' he''

/-- C1: claimed, a file whose destination copy exists with a differing
size is copied and recorded in `overwritten`.  The code instead raises
`NameError: name 'false' is not defined` at line 105 (the keyword argument
references the undefined name `false`), so on the concrete input — source
`a.txt` of 2 bytes, destination `a.txt` of 1 byte — nothing is copied,
`overwritten` stays empty, the file lands in `errors`, and the destination
is byte-for-byte unchanged. -/
theorem c1_overwrite_branch_lands_in_errors :
    sync_copy exSrc1 exDest1 = .ok exState1 ∧
    exState1.result.overwritten = [] ∧
    exState1.result.errors = ["a.txt -> name 'false' is not defined"] ∧
    exState1.dest = exDest1 ∧
    exState1.ops = [] :=
  ⟨rfl, rfl, rfl, rfl, rfl⟩

/-- C2: every run of `sync_copy` that completes without a fatal abort puts
each enumerated file entry in exactly one result list, so the four lists'
lengths sum to the number of file entries encountered. -/
theorem sync_partition (src : Source) (dest : DestFS) (st : SyncState)
    (h : sync_copy src dest = .ok st) :
    st.result.new.length + st.result.overwritten.length +
      st.result.skipped.length + st.result.errors.length =
      totalFiles src.walk := by
  unfold sync_copy at h
  split at h
  · exact absurd h (by simp)
  · split at h
    · exact absurd h (by simp)
    · have := (runWalk_ok_shape _ _ _ h).1
      simpa [SyncResult.total] using this

/-- Witness for C2 at a concrete two-file run. -/
theorem sync_partition_witness :
    exState2.result.new.length + exState2.result.overwritten.length +
      exState2.result.skipped.length + exState2.result.errors.length =
      totalFiles exSrc2.walk :=
  sync_partition exSrc2 ⟨[], []⟩ exState2 rfl

/-- C3 counterexample: the claim says that once the source-exists and
source-is-a-directory preconditions pass, `sync_copy` never raises.  On
this concrete input both preconditions pass, yet the `os.makedirs` call at
line 75 — outside the per-file `try`/`except` — raises while mirroring
`sub`, and the exception propagates out of the engine. -/
theorem c3_counterexample_mkdir_escapes :
    exSrcMkdir.pathExists = true ∧ exSrcMkdir.isDir = true ∧
    sync_copy exSrcMkdir ⟨[], []⟩ =
      .error (.osError "[Errno 17] File exists: '/data/dst/sub'") :=
  ⟨rfl, rfl, rfl⟩

/-- C3 (amended): once the preconditions pass, and provided every
destination-directory creation succeeds (the `os.makedirs` at line 75 is
outside the per-file `try`), `sync_copy` returns normally, and every entry
of `errors` is a caught per-file exception formatted as
`"<source-relative-path> -> <exception message>"` for one of the
enumerated files. -/
theorem sync_per_file_errors_caught (src : Source) (dest : DestFS)
    (h1 : src.pathExists = true) (h2 : src.isDir = true)
    (hmk : ∀ e ∈ src.walk, e.mkdirError = none) :
    ∃ st, sync_copy src dest = .ok st ∧
      ∀ s ∈ st.result.errors, ∃ e ∈ src.walk, ∃ f ∈ e.files, ∃ m,
        s = joinRel (normRel e.relDir) f.name ++ " -> " ++ m := by
  obtain ⟨st, hrw⟩ := runWalk_isOk src.walk ⟨⟨[], [], [], []⟩, dest, []⟩ hmk
  refine ⟨st, ?_, ?_⟩
  · unfold sync_copy
    simp [h1, h2, hrw]
  · intro s hs
    rcases (runWalk_ok_shape _ _ _ hrw).2.2 s hs with h | h
    · simp at h
    · exact h

/-- Witness for the amended C3: a copy failure is caught and formatted. -/
theorem sync_per_file_errors_caught_witness :
    ∃ st, sync_copy exSrcPerm ⟨[], []⟩ = .ok st ∧
      ∀ s ∈ st.result.errors, ∃ e ∈ exSrcPerm.walk, ∃ f ∈ e.files, ∃ m,
        s = joinRel (normRel e.relDir) f.name ++ " -> " ++ m :=
  sync_per_file_errors_caught exSrcPerm ⟨[], []⟩ rfl rfl (by decide)

/-- C5: claimed, running sync twice with no change to either tree makes
the second run skip every file.  On the concrete input of `exSrc1` and
`exDest1` (destination holds `a.txt` at a different size) the first run
puts `a.txt` in `errors` — the `false` typo at line 105 raises before the
overwrite copy — and changes nothing, so the unchanged second run errors
again instead of skipping: `skipped` is empty both times. -/
theorem c5_second_run_errors_again :
    sync_copy exSrc1 exDest1 = .ok exState1 ∧
    sync_copy exSrc1 exState1.dest = .ok exState1 ∧
    exState1.result.skipped = [] ∧
    exState1.result.errors = ["a.txt -> name 'false' is not defined"] :=
  ⟨rfl, rfl, rfl, rfl⟩

/-- C9 counterexample: the claim says the missing-source and
not-a-directory conditions are the only ways the engine fails.  On this
concrete input both preconditions pass, yet the engine fails with a third
kind of error, propagated from the `os.makedirs` call at line 75. -/
theorem c9_counterexample_third_failure_mode :
    exSrcLocked.pathExists = true ∧ exSrcLocked.isDir = true ∧
    sync_copy exSrcLocked ⟨[], []⟩ =
      .error (.osError "[Errno 13] Permission denied: '/backup/dst'") :=
  ⟨rfl, rfl, rfl⟩

/-- C9 (amended): `sync_copy` fails with the not-found error exactly when
the source does not exist, with the not-a-directory error when it exists
but is not a directory, and — the amendment — once both preconditions
pass it completes if and only if every destination-directory creation
succeeds, any remaining failure being the propagated `os.makedirs`
exception. -/
theorem sync_failure_modes (src : Source) (dest : DestFS) :
    (src.pathExists = false →
       sync_copy src dest =
         .error (.fileNotFound ("Source not found: " ++ src.path))) ∧
    (src.pathExists = true → src.isDir = false →
       sync_copy src dest =
         .error (.notADirectory ("Source is not a directory: " ++ src.path))) ∧
    (src.pathExists = true → src.isDir = true →
       ((∃ st, sync_copy src dest = .ok st) ↔
          ∀ e ∈ src.walk, e.mkdirError = none) ∧
       (∀ x, sync_copy src dest = .error x → ∃ m, x = .osError m)) := by
  refine ⟨fun h => by simp [sync_copy, h],
          fun h1 h2 => by simp [sync_copy, h1, h2],
          fun h1 h2 => ⟨⟨?_, ?_⟩, ?_⟩⟩
  · rintro ⟨st, hst⟩
    unfold sync_copy at hst
    simp [h1, h2] at hst
    exact runWalk_ok_mkdirError _ _ _ hst
  · intro hmk
    obtain ⟨st, h⟩ := runWalk_isOk src.walk ⟨⟨[], [], [], []⟩, dest, []⟩ hmk
    exact ⟨st, by simp [sync_copy, h1, h2, h]⟩
  · intro x hx
    unfold sync_copy at hx
    simp [h1, h2] at hx
    exact runWalk_error_shape _ _ _ hx

/-- Witness for the amended C9: the not-found branch at a concrete
missing source. -/
theorem sync_failure_modes_witness :
    sync_copy ⟨"/nope", false, false, []⟩ ⟨[], []⟩ =
      .error (.fileNotFound "Source not found: /nope") :=
  (sync_failure_modes ⟨"/nope", false, false, []⟩ ⟨[], []⟩).1 rfl

/-- A failure-free file loop over paths absent from the destination: every
file is recorded in `new`, the other lists are untouched, every listed
path is now present at the destination, and the directories are
untouched. -/
lemma runFiles_clean (rd : String) (fs : List SrcFile) (st : SyncState)
    (hcp : ∀ f ∈ fs, f.copyError = none)
    (hnew : ∀ f ∈ fs, st.dest.hasFile (joinRel rd f.name) = false)
    (hnd : (fs.map (fun f => joinRel rd f.name)).Nodup) :
    (runFiles rd fs st).result.new =
      st.result.new ++ fs.map (fun f => joinRel rd f.name) ∧
    (runFiles rd fs st).result.overwritten = st.result.overwritten ∧
    (runFiles rd fs st).result.skipped = st.result.skipped ∧
    (runFiles rd fs st).result.errors = st.result.errors ∧
    (∀ p, (runFiles rd fs st).dest.hasFile p =
          (st.dest.hasFile p ||
           (fs.map (fun f => joinRel rd f.name)).contains p)) ∧
    (runFiles rd fs st).dest.dirs = st.dest.dirs := by
  induction fs generalizing st with
  | nil =>
      refine ⟨by simp [runFiles], rfl, rfl, rfl, ?_, rfl⟩
      intro p
      simp [runFiles]
  | cons f fs ih =>
      have hgf : st.dest.getFile (joinRel rd f.name) = none := by
        have h := hnew f (List.mem_cons_self f fs)
        unfold DestFS.hasFile at h
        cases hx : st.dest.getFile (joinRel rd f.name) with
        | none => rfl
        | some v => rw [hx] at h; simp at h
      have hce : f.copyError = none := hcp f (List.mem_cons_self f fs)
      have hnd2 : joinRel rd f.name ∉ fs.map (fun g => joinRel rd g.name) ∧
          (fs.map (fun g => joinRel rd g.name)).Nodup := by
        rw [List.map_cons, List.nodup_cons] at hnd
        exact hnd
      set stN : SyncState :=
        { st with
          result := { st.result with
                      new := st.result.new ++ [joinRel rd f.name] }
          dest := st.dest.setFile (joinRel rd f.name) f.data
          ops := st.ops ++ [⟨joinRel rd f.name, joinRel rd f.name, false⟩] }
        with hstN
      have hpf : processFile rd f st = stN := by
        unfold processFile tryProcessFile
        simp [hgf, hce]
      have hnotmem : joinRel rd f.name ∉ fs.map (fun g => joinRel rd g.name) :=
        hnd2.1
      obtain ⟨ih1, ih2, ih3, ih4, ih5, ih6⟩ := ih stN
        (fun g hg => hcp g (List.mem_cons_of_mem f hg))
        (by
          intro g hg
          rw [hstN]
          have hne : (joinRel rd g.name == joinRel rd f.name) = false := by
            refine beq_eq_false_iff_ne.mpr ?_
            intro hEq
            exact hnotmem (hEq ▸ List.mem_map_of_mem _ hg)
          simp only [DestFS.hasFile_setFile, hne, Bool.false_or]
          exact hnew g (List.mem_cons_of_mem f hg))
        hnd2.2
      have hfold : runFiles rd (f :: fs) st = runFiles rd fs (processFile rd f st) := rfl
      rw [hfold, hpf]
      refine ⟨?_, by rw [ih2], by rw [ih3], by rw [ih4], ?_, ?_⟩
      · rw [ih1]
        simp [hstN, List.append_assoc]
      · intro p
        rw [ih5 p]
        rw [hstN]
        simp only [DestFS.hasFile_setFile]
        rw [List.map_cons, contains_cons_eq]
        cases hb : st.dest.hasFile p <;>
          cases hq : (p == joinRel rd f.name) <;>
            simp only [Bool.false_or, Bool.true_or, Bool.or_true, Bool.or_false]
      · rw [ih6, hstN]
        rfl

/-- A failure-free traversal into a destination holding none of the
source's file paths: everything lands in `new`, the other lists stay
empty, and the destination afterwards holds exactly the old paths plus
the walk's files, with the walk's directories mirrored. -/
lemma runWalk_clean (ws : List WalkEntry) (st : SyncState)
    (hmk : ∀ e ∈ ws, e.mkdirError = none)
    (hcp : ∀ e ∈ ws, ∀ f ∈ e.files, f.copyError = none)
    (hnew : ∀ p ∈ allPaths ws, st.dest.hasFile p = false)
    (hnd : (allPaths ws).Nodup) :
    ∃ st', runWalk ws st = .ok st' ∧
      st'.result.new = st.result.new ++ allPaths ws ∧
      st'.result.overwritten = st.result.overwritten ∧
      st'.result.skipped = st.result.skipped ∧
      st'.result.errors = st.result.errors ∧
      (∀ p, st'.dest.hasFile p =
            (st.dest.hasFile p || (allPaths ws).contains p)) ∧
      (∀ d, d ∈ st'.dest.dirs ↔
            d ∈ st.dest.dirs ∨ d ∈ ws.map (fun e => normRel e.relDir)) := by
  induction ws generalizing st with
  | nil =>
      refine ⟨st, rfl, by simp [allPaths], rfl, rfl, rfl, ?_, ?_⟩
      · intro p; simp [allPaths]
      · intro d; simp
  | cons e es ih =>
      have hsplit : allPaths (e :: es) =
          e.files.map (fun f => joinRel (normRel e.relDir) f.name) ++ allPaths es := by
        simp [allPaths]
      have hmke : e.mkdirError = none := hmk e (List.mem_cons_self e es)
      set st0 : SyncState :=
        { st with dest := st.dest.addDir (normRel e.relDir) } with hst0
      have hnd' : (e.files.map (fun f => joinRel (normRel e.relDir) f.name)).Nodup ∧
          (allPaths es).Nodup ∧
          (e.files.map (fun f => joinRel (normRel e.relDir) f.name)).Disjoint
            (allPaths es) := by
        rw [hsplit] at hnd
        exact List.nodup_append.mp hnd
      obtain ⟨rf1, rf2, rf3, rf4, rf5, rf6⟩ :=
        runFiles_clean (normRel e.relDir) e.files st0
          (hcp e (List.mem_cons_self e es))
          (by
            intro f hf
            rw [hst0]
            simp only [DestFS.hasFile_addDir]
            exact hnew _ (by
              rw [hsplit]
              exact List.mem_append_left _ (List.mem_map_of_mem _ hf)))
          hnd'.1
      set st1 : SyncState := runFiles (normRel e.relDir) e.files st0 with hst1
      obtain ⟨st', hrw, ih1, ih2, ih3, ih4, ih5, ih6⟩ := ih st1
        (fun e' he' => hmk e' (List.mem_cons_of_mem e he'))
        (fun e' he' => hcp e' (List.mem_cons_of_mem e he'))
        (by
          intro p hp
          rw [rf5 p]
          have h1 : st0.dest.hasFile p = false := by
            rw [hst0]
            simp only [DestFS.hasFile_addDir]
            exact hnew _ (by rw [hsplit]; exact List.mem_append_right _ hp)
          have h2 : (e.files.map (fun f => joinRel (normRel e.relDir) f.name)).contains p
              = false :=
            contains_eq_false _ _ (fun hmem => hnd'.2.2 hmem hp)
          rw [h1, h2]
          rfl)
        hnd'.2.1
      refine ⟨st', ?_, ?_, ?_, ?_, ?_, ?_, ?_⟩
      · show runWalk (e :: es) st = .ok st'
        unfold runWalk processEntry
        simp only [hmke]
        exact hrw
      · rw [ih1, rf1, hsplit]
        simp [hst0, List.append_assoc]
      · rw [ih2, rf2]
      · rw [ih3, rf3]
      · rw [ih4, rf4]
      · intro p
        rw [ih5 p, rf5 p, hsplit]
        have h0 : st0.dest.hasFile p = st.dest.hasFile p := by
          rw [hst0]; simp [DestFS.hasFile_addDir]
        rw [h0, contains_append_eq]
        cases hb : st.dest.hasFile p <;> simp
      · intro d
        rw [ih6 d]
        have h1 : d ∈ st1.dest.dirs ↔ d ∈ st.dest.dirs ∨ d = normRel e.relDir := by
          rw [hst1] at rf6 ⊢
          rw [rf6, hst0]
          exact DestFS.mem_dirs_addDir st.dest (normRel e.relDir) d
        rw [h1]
        simp only [List.map_cons, List.mem_cons]
        tauto

/-- C4: on an empty destination with no environment failures, every file
of the source tree (whose relative paths are pairwise distinct, as a real
tree's are) is recorded in `new`, the other three lists stay empty, every
copy was performed with `follow_symlinks=False`, and the destination's
relative directory paths afterwards are exactly the source tree's. -/
theorem sync_empty_dest_all_new (src : Source)
    (h1 : src.pathExists = true) (h2 : src.isDir = true)
    (hmk : ∀ e ∈ src.walk, e.mkdirError = none)
    (hcp : ∀ e ∈ src.walk, ∀ f ∈ e.files, f.copyError = none)
    (hnd : (allPaths src.walk).Nodup) :
    ∃ st, sync_copy src ⟨[], []⟩ = .ok st ∧
      st.result.new = allPaths src.walk ∧
      st.result.overwritten = [] ∧
      st.result.skipped = [] ∧
      st.result.errors = [] ∧
      (∀ op ∈ st.ops, op.followSymlinks = false) ∧
      (∀ d, d ∈ st.dest.dirs ↔ d ∈ src.walk.map (fun e => normRel e.relDir)) := by
  have hempty : ∀ p, (DestFS.mk [] []).hasFile p = false := by
    intro p; rfl
  obtain ⟨st, hrw, c1, c2, c3, c4, _, c6⟩ :=
    runWalk_clean src.walk ⟨⟨[], [], [], []⟩, ⟨[], []⟩, []⟩ hmk hcp
      (fun p _ => hempty p) hnd
  have hsync : sync_copy src ⟨[], []⟩ = .ok st := by
    unfold sync_copy
    simp [h1, h2, hrw]
  refine ⟨st, hsync, by simpa using c1, c2, c3, c4, ?_, ?_⟩
  · intro op hop
    rcases (runWalk_ok_shape _ _ _ hrw).2.1 op hop with h | h
    · simp at h
    · exact h
  · intro d
    rw [c6 d]
    simp

/-- Witness for C4 at the spec's two-file scenario. -/
theorem sync_empty_dest_all_new_witness :
    ∃ st, sync_copy exSrc2 ⟨[], []⟩ = .ok st ∧
      st.result.new = allPaths exSrc2.walk ∧
      st.result.overwritten = [] ∧
      st.result.skipped = [] ∧
      st.result.errors = [] ∧
      (∀ op ∈ st.ops, op.followSymlinks = false) ∧
      (∀ d, d ∈ st.dest.dirs ↔ d ∈ exSrc2.walk.map (fun e => normRel e.relDir)) :=
  sync_empty_dest_all_new exSrc2 rfl rfl (by decide) (by decide) (by decide)

/-- C6: a file whose destination copy exists and whose two size lookups
succeed with equal values is recorded as skipped, and the per-file step
performs no I/O: the whole state except the `skipped` list — in particular
the destination filesystem, the trace of copies, and the destination
file's bytes — is unchanged, with no hypothesis on the contents. -/
theorem skip_equal_sizes_no_io (rd : String) (f : SrcFile) (st : SyncState)
    (dfd : FileData) (n : Nat)
    (h1 : st.dest.getFile (joinRel rd f.name) = some dfd)
    (h2 : f.data.size = some n) (h3 : dfd.size = some n) :
    processFile rd f st =
      { st with result := { st.result with
                skipped := st.result.skipped ++ [joinRel rd f.name] } } ∧
    (processFile rd f st).dest = st.dest ∧
    (processFile rd f st).ops = st.ops ∧
    (processFile rd f st).dest.getFile (joinRel rd f.name) = some dfd := by
  have hmain : processFile rd f st =
      { st with result := { st.result with
                skipped := st.result.skipped ++ [joinRel rd f.name] } } := by
    unfold processFile tryProcessFile
    simp [h1, h2, h3]
  refine ⟨hmain, ?_, ?_, ?_⟩ <;> rw [hmain]
  exact h1

/-- Witness for C6: destination content `"old"` differs from source
content `"new"` at the same length, and the step only records the skip. -/
theorem skip_equal_sizes_no_io_witness :
    processFile "" ⟨"n.txt", ⟨some 3, "new", false⟩, none⟩
        ⟨⟨[], [], [], []⟩, ⟨[""], [("n.txt", ⟨some 3, "old", false⟩)]⟩, []⟩ =
      ⟨⟨[], [], ["n.txt"], []⟩,
       ⟨[""], [("n.txt", ⟨some 3, "old", false⟩)]⟩, []⟩ ∧
    (processFile "" ⟨"n.txt", ⟨some 3, "new", false⟩, none⟩
        ⟨⟨[], [], [], []⟩, ⟨[""], [("n.txt", ⟨some 3, "old", false⟩)]⟩, []⟩).dest =
      ⟨[""], [("n.txt", ⟨some 3, "old", false⟩)]⟩ ∧
    (processFile "" ⟨"n.txt", ⟨some 3, "new", false⟩, none⟩
        ⟨⟨[], [], [], []⟩, ⟨[""], [("n.txt", ⟨some 3, "old", false⟩)]⟩, []⟩).ops = [] ∧
    (processFile "" ⟨"n.txt", ⟨some 3, "new", false⟩, none⟩
        ⟨⟨[], [], [], []⟩, ⟨[""], [("n.txt", ⟨some 3, "old", false⟩)]⟩, []⟩).dest.getFile
        (joinRel "" "n.txt") = some ⟨some 3, "old", false⟩ :=
  skip_equal_sizes_no_io "" ⟨"n.txt", ⟨some 3, "new", false⟩, none⟩
    ⟨⟨[], [], [], []⟩, ⟨[""], [("n.txt", ⟨some 3, "old", false⟩)]⟩, []⟩
    ⟨some 3, "old", false⟩ 3 rfl rfl rfl

lemma append_ne_of_length_lt (a b c : String) (h : c.length < a.length) :
    a ++ b ≠ c := by
  intro hc
  have hl := congrArg String.length hc
  rw [String.length_append] at hl
  omega

/-- When the `errors` key is absent or empty, no `Errors:` header line is
written. -/
lemma errors_header_not_mem (r : ResultsDict) (dateStr : String)
    (h : r.errors?.getD [] = []) :
    "Errors:" ∉ write_report_lines r dateStr := by
  unfold write_report_lines
  simp only [h]
  intro hmem
  simp only [List.isEmpty_nil, if_true, List.nil_append, List.length_nil,
             List.mem_cons, List.mem_singleton] at hmem
  rcases hmem with h1 | h1 | h1 | h1 | h1 | h1 | h1 | h1
  · exact append_ne_of_length_lt _ _ _ (by decide) h1.symm
  · exact absurd h1 (by decide)
  · exact append_ne_of_length_lt _ _ _ (by decide) h1.symm
  · exact append_ne_of_length_lt _ _ _ (by decide) h1.symm
  · exact append_ne_of_length_lt _ _ _ (by decide) h1.symm
  · exact absurd h1 (by decide)
  · exact absurd h1 (by decide)
  · exact absurd h1 (by decide)

/-- The report always ends with the sentinel line. -/
lemma getLast_write_report (r : ResultsDict) (dateStr : String) :
    (write_report_lines r dateStr).getLast? = some "End of report" := by
  unfold write_report_lines
  simp only [← List.cons_append]
  exact List.getLast?_concat _

/-- C7: the report `write_report` produces from a sync result shows the
four summary counts equal to the four lists' lengths, contains the
`Errors:` section header exactly when the errors list is non-empty, lists
every error string verbatim on its own (indented) line, and ends with the
`End of report` line. -/
theorem write_report_spec (r : SyncResult) (dateStr : String) :
    (write_report_lines r.toDict dateStr)[2]? =
      some ("  New files:         " ++ toString r.new.length) ∧
    (write_report_lines r.toDict dateStr)[3]? =
      some ("  Overwritten files: " ++ toString r.overwritten.length) ∧
    (write_report_lines r.toDict dateStr)[4]? =
      some ("  Skipped files:     " ++ toString r.skipped.length) ∧
    (write_report_lines r.toDict dateStr)[5]? =
      some ("  Errors:            " ++ toString r.errors.length) ∧
    ("Errors:" ∈ write_report_lines r.toDict dateStr ↔ r.errors ≠ []) ∧
    (∀ e ∈ r.errors, ("  " ++ e) ∈ write_report_lines r.toDict dateStr) ∧
    (write_report_lines r.toDict dateStr).getLast? = some "End of report" := by
  refine ⟨rfl, rfl, rfl, rfl, ⟨?_, ?_⟩, ?_, getLast_write_report r.toDict dateStr⟩
  · intro hmem herr
    exact errors_header_not_mem r.toDict dateStr (by simp [SyncResult.toDict, herr]) hmem
  · intro herr
    have hie : r.errors.isEmpty = false := by
      cases hr : r.errors with
      | nil => exact absurd hr herr
      | cons a t => rfl
    unfold write_report_lines
    simp [SyncResult.toDict, hie]
  · intro e he
    have herr : r.errors ≠ [] := List.ne_nil_of_mem he
    have hie : r.errors.isEmpty = false := by
      cases hr : r.errors with
      | nil => exact absurd hr herr
      | cons a t => rfl
    unfold write_report_lines
    simp only [SyncResult.toDict, Option.getD_some, hie, Bool.false_eq_true,
               if_false]
    refine List.mem_cons_of_mem _ (List.mem_cons_of_mem _ (List.mem_cons_of_mem _
      (List.mem_cons_of_mem _ (List.mem_cons_of_mem _ (List.mem_cons_of_mem _
      (List.mem_cons_of_mem _ ?_))))))
    exact List.mem_append_left _ (List.mem_cons_of_mem _
      (List.mem_append_left _ (List.mem_map_of_mem _ he)))

/-- Witness for C7: the errors section is present for a non-empty errors
list. -/
theorem write_report_spec_witness :
    "Errors:" ∈
      write_report_lines (SyncResult.mk [] [] [] ["a.txt -> boom"]).toDict
        "2026-10-12" :=
  ((write_report_spec ⟨[], [], [], ["a.txt -> boom"]⟩ "2026-10-12").2.2.2.2.1).mpr
    (by simp)

/-- C8: the CLI glue's exception path writes an error report whose summary
counts are all zero except `Errors: 1`, whose single error entry (line 9
of the report) is the exception's message, and which ends with the
sentinel; it then prints the error message and the report path.  The
report lines are produced unconditionally — the output structure always
carries them — so the process never ends on this path without a report. -/
theorem main_on_exception_spec (m rd fn d : String) :
    (main_on_exception m rd fn d).reportLines[2]? = some "  New files:         0" ∧
    (main_on_exception m rd fn d).reportLines[3]? = some "  Overwritten files: 0" ∧
    (main_on_exception m rd fn d).reportLines[4]? = some "  Skipped files:     0" ∧
    (main_on_exception m rd fn d).reportLines[5]? = some "  Errors:            1" ∧
    (main_on_exception m rd fn d).reportLines[8]? = some ("  " ++ m) ∧
    (main_on_exception m rd fn d).reportLines.length = 11 ∧
    (main_on_exception m rd fn d).reportLines.getLast? = some "End of report" ∧
    (main_on_exception m rd fn d).consoleLines =
      ["Fatal error: " ++ m,
       "Error report written to: " ++ report_path rd d fn] ∧
    (main_on_exception m rd fn d).reportPath = report_path rd d fn :=
  ⟨rfl, rfl, rfl, rfl, rfl, rfl, rfl, rfl, rfl⟩

/-- Witness for C8 at the spec's missing-source scenario. -/
theorem main_on_exception_spec_witness :
    (main_on_exception "Source directory does not exist: /nope" "/rep"
        "example" "2026-10-12").reportLines[8]? =
      some "  Source directory does not exist: /nope" :=
  (main_on_exception_spec "Source directory does not exist: /nope" "/rep"
      "example" "2026-10-12").2.2.2.2.1

/-- C10: `write_report` reads each result list with `.get(key, [])`, so it
is total over partial dictionaries: a missing key is reported as count 0
and the report is still well-formed (the model is a total function, so no
exception path exists), including the closing sentinel line. -/
theorem write_report_total_on_missing_keys (r : ResultsDict) (dateStr : String) :
    (r.new? = none →
       (write_report_lines r dateStr)[2]? = some "  New files:         0") ∧
    (r.overwritten? = none →
       (write_report_lines r dateStr)[3]? = some "  Overwritten files: 0") ∧
    (r.skipped? = none →
       (write_report_lines r dateStr)[4]? = some "  Skipped files:     0") ∧
    (r.errors? = none →
       (write_report_lines r dateStr)[5]? = some "  Errors:            0" ∧
       "Errors:" ∉ write_report_lines r dateStr) ∧
    (write_report_lines r dateStr).getLast? = some "End of report" := by
  refine ⟨?_, ?_, ?_, ?_, getLast_write_report r dateStr⟩
  · intro h
    unfold write_report_lines
    rw [h]
    rfl
  · intro h
    unfold write_report_lines
    rw [h]
    rfl
  · intro h
    unfold write_report_lines
    rw [h]
    rfl
  · intro h
    refine ⟨?_, errors_header_not_mem r dateStr (by rw [h]; rfl)⟩
    unfold write_report_lines
    rw [h]
    rfl

/-- Witness for C10 at the empty dictionary. -/
theorem write_report_total_on_missing_keys_witness :
    (write_report_lines ⟨none, none, none, none⟩ "2026-10-12")[2]? =
      some "  New files:         0" :=
  (write_report_total_on_missing_keys ⟨none, none, none, none⟩ "2026-10-12").1 rfl

end FileSync
